import Mathlib

/-!
Verification of the disposable-secret-sharing lifecycle engine (`main.py`).

Shallow embedding conventions:
* Python `str` is Lean `String` (both are sequences of Unicode scalar values;
  Python `len` is `String.length`).
* Python `bytes` is `List Nat` with every element `< 256`.
* `datetime` values are `Nat` ticks (seconds); `timedelta(hours=h)` is `h * 3600`;
  each call to `datetime.utcnow()` is a separate clock-reading parameter.
* The MongoDB `secrets` collection is a `List SecretDoc`; the singleton stats
  document is a pair of counters.  `delete_many`, `find_one`, `update_one` and
  `$inc` are modelled by the list operations below at the atomicity granularity
  the driver provides (each whole call is atomic).
* Exceptions (`HTTPException`, decryption errors) are modelled with `Option` /
  explicit result constructors.
* The external crypto library calls (`ChaCha20Poly1305`, `hashlib.sha256`) are
  embedded as executable Lean implementations of RFC 8439 ChaCha20-Poly1305 and
  FIPS 180-4 SHA-256 over `List Nat` bytes.
-/

namespace SecretSharing

/-! ## UTF-8 codec: model of Python `str.encode()` / `bytes.decode()` -/

/-- UTF-8 encoding of a single Unicode scalar value, written with `/` and `%`
(arithmetically equal to the usual shift/mask formulation). -/
def utf8EncodeChar (c : Char) : List Nat :=
  if c.toNat < 0x80 then [c.toNat]
  else if c.toNat < 0x800 then [0xC0 + c.toNat / 64, 0x80 + c.toNat % 64]
  else if c.toNat < 0x10000 then
    [0xE0 + c.toNat / 4096, 0x80 + c.toNat / 64 % 64, 0x80 + c.toNat % 64]
  else
    [0xF0 + c.toNat / 262144, 0x80 + c.toNat / 4096 % 64, 0x80 + c.toNat / 64 % 64,
      0x80 + c.toNat % 64]

/-- Model of Python `content.encode()` (UTF-8, always succeeds on `str`). -/
def utf8Encode (s : String) : List Nat :=
  s.data.flatMap utf8EncodeChar

/-- Number of continuation bytes expected after lead byte `b`, together with
the value contributed by the lead byte; used by `utf8DecodeAux`. -/
def utf8ContValue (l : List Nat) (k : Nat) : Nat :=
  (List.range k).foldl (fun acc i => acc * 64 + (l.getD i 0 - 0x80)) 0

/-- All of the first `k` elements of `l` are UTF-8 continuation bytes. -/
def utf8ContOk (l : List Nat) (k : Nat) : Bool :=
  decide (k ≤ l.length) &&
    (List.range k).all (fun i => decide (0x80 ≤ l.getD i 0) && decide (l.getD i 0 < 0xC0))

/-- Worker for `utf8Decode`; `fuel` only bounds the recursion depth (one unit
per decoded character) and is always sufficient at the call site. -/
def utf8DecodeAux : Nat → List Nat → Option (List Char)
  | 0, _ => none
  | _ + 1, [] => some []
  | fuel + 1, b :: l =>
    if b < 0x80 then
      (utf8DecodeAux fuel l).map (fun cs => Char.ofNat b :: cs)
    else if b < 0xC2 then none
    else if b < 0xE0 then
      if utf8ContOk l 1 then
        (utf8DecodeAux fuel (l.drop 1)).map
          (fun cs => Char.ofNat ((b - 0xC0) * 64 + utf8ContValue l 1) :: cs)
      else none
    else if b < 0xF0 then
      if utf8ContOk l 2 ∧ 0x800 ≤ (b - 0xE0) * 4096 + utf8ContValue l 2 ∧
          ((b - 0xE0) * 4096 + utf8ContValue l 2 < 0xD800 ∨
            0xE000 ≤ (b - 0xE0) * 4096 + utf8ContValue l 2) then
        (utf8DecodeAux fuel (l.drop 2)).map
          (fun cs => Char.ofNat ((b - 0xE0) * 4096 + utf8ContValue l 2) :: cs)
      else none
    else if b < 0xF5 then
      if utf8ContOk l 3 ∧ 0x10000 ≤ (b - 0xF0) * 262144 + utf8ContValue l 3 ∧
          (b - 0xF0) * 262144 + utf8ContValue l 3 < 0x110000 then
        (utf8DecodeAux fuel (l.drop 3)).map
          (fun cs => Char.ofNat ((b - 0xF0) * 262144 + utf8ContValue l 3) :: cs)
      else none
    else none

/-- Model of Python `bytes.decode()`: strict UTF-8 decoding, rejecting stray or
missing continuation bytes, overlong forms, surrogates and out-of-range values;
`none` models `UnicodeDecodeError`. -/
def utf8Decode (l : List Nat) : Option (List Char) :=
  utf8DecodeAux (l.length + 1) l

theorem char_valid_ranges (c : Char) :
    c.toNat < 0xD800 ∨ (0xE000 ≤ c.toNat ∧ c.toNat < 0x110000) :=
  c.valid

theorem utf8EncodeChar_bytes_lt (c : Char) : ∀ b ∈ utf8EncodeChar c, b < 256 := by
  have hv := char_valid_ranges c
  intro b hb
  unfold utf8EncodeChar at hb
  split at hb
  · simp at hb; omega
  · split at hb
    · simp at hb
      rcases hb with h | h <;> omega
    · split at hb
      · simp at hb
        rcases hb with h | h | h <;> omega
      · simp at hb
        rcases hb with h | h | h | h <;> omega

theorem utf8EncodeChar_ne_nil (c : Char) : 1 ≤ (utf8EncodeChar c).length := by
  unfold utf8EncodeChar
  split <;> try simp
  split <;> try simp
  split <;> simp

theorem utf8DecodeAux_encodeChar (c : Char) (rest : List Nat) (fuel : Nat) :
    utf8DecodeAux (fuel + 1) (utf8EncodeChar c ++ rest) =
      (utf8DecodeAux fuel rest).map (fun cs => c :: cs) := by
  have hv := char_valid_ranges c
  unfold utf8EncodeChar
  by_cases h1 : c.toNat < 0x80
  · rw [if_pos h1]
    show utf8DecodeAux (fuel + 1) (c.toNat :: rest) = _
    rw [utf8DecodeAux, if_pos h1, Char.ofNat_toNat]
  · rw [if_neg h1]
    by_cases h2 : c.toNat < 0x800
    · rw [if_pos h2]
      show utf8DecodeAux (fuel + 1) (_ :: _ :: rest) = _
      rw [utf8DecodeAux, if_neg (by omega), if_neg (by omega), if_pos (by omega)]
      have hok : utf8ContOk ((0x80 + c.toNat % 64) :: rest) 1 = true := by
        simp [utf8ContOk]; omega
      rw [if_pos hok]
      have hval : utf8ContValue ((0x80 + c.toNat % 64) :: rest) 1 = c.toNat % 64 := by
        simp [utf8ContValue, List.range_succ]
      rw [hval]
      have hn : (0xC0 + c.toNat / 64 - 0xC0) * 64 + c.toNat % 64 = c.toNat := by omega
      rw [List.drop_one, List.tail_cons, hn, Char.ofNat_toNat]
    · rw [if_neg h2]
      by_cases h3 : c.toNat < 0x10000
      · rw [if_pos h3]
        show utf8DecodeAux (fuel + 1) (_ :: _ :: _ :: rest) = _
        rw [utf8DecodeAux, if_neg (by omega), if_neg (by omega), if_neg (by omega),
          if_pos (by omega)]
        have hval : utf8ContValue ((0x80 + c.toNat / 64 % 64) :: (0x80 + c.toNat % 64) :: rest) 2 =
            c.toNat / 64 % 64 * 64 + c.toNat % 64 := by
          simp [utf8ContValue, List.range_succ]
        have hn : (0xE0 + c.toNat / 4096 - 0xE0) * 4096 + (c.toNat / 64 % 64 * 64 + c.toNat % 64) =
            c.toNat := by omega
        have hok : utf8ContOk ((0x80 + c.toNat / 64 % 64) :: (0x80 + c.toNat % 64) :: rest) 2 = true := by
          simp [utf8ContOk, List.range_succ]; omega
        rw [if_pos]
        · rw [hval, hn]
          show (utf8DecodeAux fuel rest).map _ = _
          rw [Char.ofNat_toNat]
        · rw [hok, hval, hn]
          refine ⟨rfl, by omega, by omega⟩
      · rw [if_neg h3]
        show utf8DecodeAux (fuel + 1) (_ :: _ :: _ :: _ :: rest) = _
        rw [utf8DecodeAux, if_neg (by omega), if_neg (by omega), if_neg (by omega),
          if_neg (by omega), if_pos (by omega)]
        have hval : utf8ContValue
            ((0x80 + c.toNat / 4096 % 64) :: (0x80 + c.toNat / 64 % 64) :: (0x80 + c.toNat % 64) :: rest)
            3 = (c.toNat / 4096 % 64 * 64 + c.toNat / 64 % 64) * 64 + c.toNat % 64 := by
          simp [utf8ContValue, List.range_succ]
        have hn : (0xF0 + c.toNat / 262144 - 0xF0) * 262144 +
            ((c.toNat / 4096 % 64 * 64 + c.toNat / 64 % 64) * 64 + c.toNat % 64) = c.toNat := by
          omega
        have hok : utf8ContOk
            ((0x80 + c.toNat / 4096 % 64) :: (0x80 + c.toNat / 64 % 64) :: (0x80 + c.toNat % 64) :: rest)
            3 = true := by
          simp [utf8ContOk, List.range_succ]; omega
        rw [if_pos]
        · rw [hval, hn]
          show (utf8DecodeAux fuel rest).map _ = _
          rw [Char.ofNat_toNat]
        · rw [hok, hval, hn]
          refine ⟨rfl, by omega, by omega⟩

theorem utf8DecodeAux_encode (cs : List Char) :
    ∀ fuel, cs.length ≤ fuel → utf8DecodeAux (fuel + 1) (cs.flatMap utf8EncodeChar) = some cs := by
  induction cs with
  | nil => intro fuel _; rfl
  | cons c cs ih =>
    intro fuel h
    obtain ⟨f, rfl⟩ : ∃ f, fuel = f + 1 := ⟨fuel - 1, by simp at h; omega⟩
    rw [List.flatMap_cons, utf8DecodeAux_encodeChar, ih f (by simp at h; omega),
      Option.map_some']

theorem length_le_flatMap_utf8 (cs : List Char) :
    cs.length ≤ (cs.flatMap utf8EncodeChar).length := by
  induction cs with
  | nil => simp
  | cons c cs ih =>
    rw [List.flatMap_cons, List.length_append, List.length_cons]
    have := utf8EncodeChar_ne_nil c
    omega

theorem utf8Decode_utf8Encode (s : String) :
    utf8Decode (utf8Encode s) = some s.data := by
  unfold utf8Decode utf8Encode
  exact utf8DecodeAux_encode s.data _ (length_le_flatMap_utf8 s.data)

theorem utf8Encode_bytes_lt (s : String) : ∀ b ∈ utf8Encode s, b < 256 := by
  intro b hb
  unfold utf8Encode at hb
  rw [List.mem_flatMap] at hb
  obtain ⟨c, _, hc⟩ := hb
  exact utf8EncodeChar_bytes_lt c b hc

/-! ## Base64 codec: model of Python `base64.b64encode` / `base64.b64decode` -/

/-- Standard base64 alphabet, indexed arithmetically. -/
def b64Char (v : Nat) : Char :=
  if v < 26 then Char.ofNat (65 + v)
  else if v < 52 then Char.ofNat (71 + v)
  else if v < 62 then Char.ofNat (v - 4)
  else if v = 62 then '+' else '/'

/-- Inverse of the base64 alphabet; `none` for characters outside it. -/
def b64Val (c : Char) : Option Nat :=
  if 65 ≤ c.toNat ∧ c.toNat ≤ 90 then some (c.toNat - 65)
  else if 97 ≤ c.toNat ∧ c.toNat ≤ 122 then some (c.toNat - 71)
  else if 48 ≤ c.toNat ∧ c.toNat ≤ 57 then some (c.toNat + 4)
  else if c.toNat = 43 then some 62
  else if c.toNat = 47 then some 63
  else none

/-- Model of `base64.b64encode(bytes).decode()`: three input bytes become four
alphabet characters, with `=` padding for a 1- or 2-byte tail. -/
def b64Encode : List Nat → List Char
  | [] => []
  | [b1] => [b64Char (b1 / 4), b64Char (b1 % 4 * 16), '=', '=']
  | [b1, b2] => [b64Char (b1 / 4), b64Char (b1 % 4 * 16 + b2 / 16), b64Char (b2 % 16 * 4), '=']
  | b1 :: b2 :: b3 :: rest =>
    b64Char (b1 / 4) :: b64Char (b1 % 4 * 16 + b2 / 16) :: b64Char (b2 % 16 * 4 + b3 / 64) ::
      b64Char (b3 % 64) :: b64Encode rest

/-- Model of `base64.b64decode`: processes four characters at a time, handling
`=` padding in the final group; `none` models `binascii.Error`.  (Python also
silently discards bytes outside the alphabet before decoding; every call in
`main.py` decodes strings produced by `b64encode`, where the two behaviours
agree.) -/
def b64Decode : List Char → Option (List Nat)
  | [] => some []
  | c1 :: c2 :: c3 :: c4 :: rest =>
    match b64Val c1, b64Val c2 with
    | some v1, some v2 =>
      if c3 = '=' then
        if c4 = '=' ∧ rest = [] then some [v1 * 4 + v2 / 16] else none
      else
        match b64Val c3 with
        | some v3 =>
          if c4 = '=' then
            if rest = [] then some [v1 * 4 + v2 / 16, v2 % 16 * 16 + v3 / 4] else none
          else
            match b64Val c4 with
            | some v4 =>
              (b64Decode rest).map
                (fun bs => (v1 * 4 + v2 / 16) :: (v2 % 16 * 16 + v3 / 4) :: (v3 % 4 * 64 + v4) :: bs)
            | none => none
        | none => none
    | _, _ => none
  | _ => none

theorem b64Val_b64Char : ∀ v < 64, b64Val (b64Char v) = some v := by decide

theorem b64Char_ne_eq : ∀ v < 64, b64Char v ≠ '=' := by decide

theorem b64Decode_b64Encode :
    ∀ bs : List Nat, (∀ b ∈ bs, b < 256) → b64Decode (b64Encode bs) = some bs
  | [], _ => by rfl
  | [b1], h => by
    have hb1 : b1 < 256 := h b1 (by simp)
    rw [b64Encode, b64Decode, b64Val_b64Char _ (show b1 / 4 < 64 by omega),
      b64Val_b64Char _ (show b1 % 4 * 16 < 64 by omega)]
    simp
    omega
  | [b1, b2], h => by
    have hb1 : b1 < 256 := h b1 (by simp)
    have hb2 : b2 < 256 := h b2 (by simp)
    have hne3 := b64Char_ne_eq _ (show b2 % 16 * 4 < 64 by omega)
    have hv3 := b64Val_b64Char _ (show b2 % 16 * 4 < 64 by omega)
    rw [b64Encode, b64Decode, b64Val_b64Char _ (show b1 / 4 < 64 by omega),
      b64Val_b64Char _ (show b1 % 4 * 16 + b2 / 16 < 64 by omega)]
    simp [hne3, hv3]
    omega
  | b1 :: b2 :: b3 :: rest, h => by
    have hb1 : b1 < 256 := h b1 (by simp)
    have hb2 : b2 < 256 := h b2 (by simp)
    have hb3 : b3 < 256 := h b3 (by simp)
    have ih := b64Decode_b64Encode rest (by
      intro b hb
      exact h b (by simp [hb]))
    have hne3 := b64Char_ne_eq _ (show b2 % 16 * 4 + b3 / 64 < 64 by omega)
    have hv3 := b64Val_b64Char _ (show b2 % 16 * 4 + b3 / 64 < 64 by omega)
    have hne4 := b64Char_ne_eq _ (show b3 % 64 < 64 by omega)
    have hv4 := b64Val_b64Char _ (show b3 % 64 < 64 by omega)
    rw [b64Encode, b64Decode, b64Val_b64Char _ (show b1 / 4 < 64 by omega),
      b64Val_b64Char _ (show b1 % 4 * 16 + b2 / 16 < 64 by omega)]
    simp [hne3, hv3, hne4, hv4, ih]
    omega

/-- Model of the whole Python expression `base64.b64encode(bs).decode()`. -/
def b64EncodeStr (bs : List Nat) : String :=
  String.mk (b64Encode bs)

/-- Model of `base64.b64decode(s)` on a Python `str` argument. -/
def b64DecodeStr (s : String) : Option (List Nat) :=
  b64Decode s.data

theorem b64DecodeStr_b64EncodeStr (bs : List Nat) (h : ∀ b ∈ bs, b < 256) :
    b64DecodeStr (b64EncodeStr bs) = some bs :=
  b64Decode_b64Encode bs h

/-! ## SHA-256 (FIPS 180-4): model of `hashlib.sha256(...).hexdigest()` -/

/-- 32-bit rotate right, on `Nat` values below `2 ^ 32`. -/
def rotr32 (x n : Nat) : Nat :=
  x / 2 ^ n + x % 2 ^ n * 2 ^ (32 - n)

/-- Big-endian 32-bit word read at word index `i`. -/
def beWord32 (l : List Nat) (i : Nat) : Nat :=
  ((l.getD (4 * i) 0 * 256 + l.getD (4 * i + 1) 0) * 256 + l.getD (4 * i + 2) 0) * 256 +
    l.getD (4 * i + 3) 0

def sha256K : List Nat :=
  [1116352408, 1899447441, 3049323471, 3921009573, 961987163, 1508970993,
   2453635748, 2870763221, 3624381080, 310598401, 607225278, 1426881987,
   1925078388, 2162078206, 2614888103, 3248222580, 3835390401, 4022224774,
   264347078, 604807628, 770255983, 1249150122, 1555081692, 1996064986,
   2554220882, 2821834349, 2952996808, 3210313671, 3336571891, 3584528711,
   113926993, 338241895, 666307205, 773529912, 1294757372, 1396182291,
   1695183700, 1986661051, 2177026350, 2456956037, 2730485921, 2820302411,
   3259730800, 3345764771, 3516065817, 3600352804, 4094571909, 275423344,
   430227734, 506948616, 659060556, 883997877, 958139571, 1322822218,
   1537002063, 1747873779, 1955562222, 2024104815, 2227730452, 2361852424,
   2428436474, 2756734187, 3204031479, 3329325298]

def sha256H0 : List Nat :=
  [1779033703, 3144134277, 1013904242, 2773480762,
   1359893119, 2600822924, 528734635, 1541459225]

def smallSigma0 (x : Nat) : Nat := rotr32 x 7 ^^^ rotr32 x 18 ^^^ x / 2 ^ 3

def smallSigma1 (x : Nat) : Nat := rotr32 x 17 ^^^ rotr32 x 19 ^^^ x / 2 ^ 10

def bigSigma0 (x : Nat) : Nat := rotr32 x 2 ^^^ rotr32 x 13 ^^^ rotr32 x 22

def bigSigma1 (x : Nat) : Nat := rotr32 x 6 ^^^ rotr32 x 11 ^^^ rotr32 x 25

/-- Merkle–Damgård padding: `0x80`, zeros, then the 64-bit big-endian bit length. -/
def sha256Pad (msg : List Nat) : List Nat :=
  msg ++ [0x80] ++ List.replicate ((119 - msg.length % 64) % 64) 0 ++
    (List.range 8).map (fun i => msg.length * 8 / 2 ^ (8 * (7 - i)) % 256)

/-- The 64-word message schedule of one 512-bit block. -/
def sha256Schedule (block : List Nat) : List Nat :=
  (List.range 48).foldl
    (fun w t =>
      w ++ [(smallSigma1 (w.getD (t + 14) 0) + w.getD (t + 9) 0 + smallSigma0 (w.getD (t + 1) 0) +
        w.getD t 0) % 2 ^ 32])
    ((List.range 16).map (beWord32 block))

/-- One application of the SHA-256 compression function. -/
def sha256Compress (state block : List Nat) : List Nat :=
  let w := sha256Schedule block
  let final := (List.range 64).foldl
    (fun s t =>
      let a := s.getD 0 0
      let b := s.getD 1 0
      let c := s.getD 2 0
      let d := s.getD 3 0
      let e := s.getD 4 0
      let f := s.getD 5 0
      let g := s.getD 6 0
      let h := s.getD 7 0
      let t1 := (h + bigSigma1 e + ((e &&& f) ^^^ ((2 ^ 32 - 1 - e) &&& g)) + sha256K.getD t 0 +
        w.getD t 0) % 2 ^ 32
      let t2 := (bigSigma0 a + ((a &&& b) ^^^ (a &&& c) ^^^ (b &&& c))) % 2 ^ 32
      [(t1 + t2) % 2 ^ 32, a, b, c, (d + t1) % 2 ^ 32, e, f, g])
    state
  List.zipWith (fun x y => (x + y) % 2 ^ 32) state final

/-- SHA-256 digest (32 bytes) of a byte sequence. -/
def sha256 (msg : List Nat) : List Nat :=
  let padded := sha256Pad msg
  let final := (List.range (padded.length / 64)).foldl
    (fun st i => sha256Compress st ((padded.drop (64 * i)).take 64)) sha256H0
  final.flatMap (fun w => (List.range 4).map (fun j => w / 2 ^ (8 * (3 - j)) % 256))

def hexChar (n : Nat) : Char :=
  if n < 10 then Char.ofNat (48 + n) else Char.ofNat (87 + n)

/-- Lowercase hex string of a byte sequence (Python `.hexdigest()`). -/
def bytesToHex (bs : List Nat) : String :=
  String.mk (bs.flatMap (fun b => [hexChar (b / 16), hexChar (b % 16)]))

/-- `hash_password` from `main.py`: SHA-256 hex digest of the UTF-8 password. -/
def hash_password (password : String) : String :=
  bytesToHex (sha256 (utf8Encode password))

/-! ## ChaCha20-Poly1305 (RFC 8439): model of the `cryptography` library AEAD -/

/-- 32-bit rotate left, on `Nat` values below `2 ^ 32`. -/
def rotl32 (x n : Nat) : Nat :=
  x * 2 ^ n % 2 ^ 32 + x / 2 ^ (32 - n)

/-- Little-endian 32-bit word read at word index `i`. -/
def leWord32 (l : List Nat) (i : Nat) : Nat :=
  l.getD (4 * i) 0 + 256 * (l.getD (4 * i + 1) 0 + 256 * (l.getD (4 * i + 2) 0 +
    256 * l.getD (4 * i + 3) 0))

/-- ChaCha quarter round acting on positions `a b c d` of a 16-word state. -/
def qrStep (s : List Nat) (a b c d : Nat) : List Nat :=
  let sa := (s.getD a 0 + s.getD b 0) % 2 ^ 32
  let sd := rotl32 (s.getD d 0 ^^^ sa) 16
  let sc := (s.getD c 0 + sd) % 2 ^ 32
  let sb := rotl32 (s.getD b 0 ^^^ sc) 12
  let sa2 := (sa + sb) % 2 ^ 32
  let sd2 := rotl32 (sd ^^^ sa2) 8
  let sc2 := (sc + sd2) % 2 ^ 32
  let sb2 := rotl32 (sb ^^^ sc2) 7
  (((s.set a sa2).set b sb2).set c sc2).set d sd2

def chachaDoubleRound (s : List Nat) : List Nat :=
  qrStep (qrStep (qrStep (qrStep
    (qrStep (qrStep (qrStep (qrStep s 0 4 8 12) 1 5 9 13) 2 6 10 14) 3 7 11 15)
    0 5 10 15) 1 6 11 12) 2 7 8 13) 3 4 9 14

/-- The ChaCha20 block function: 64 keystream bytes for one block counter. -/
def chacha20Block (key : List Nat) (counter : Nat) (nonce : List Nat) : List Nat :=
  let init := [0x61707865, 0x3320646e, 0x79622d32, 0x6b206574] ++
    (List.range 8).map (leWord32 key) ++ [counter % 2 ^ 32] ++ (List.range 3).map (leWord32 nonce)
  let final := (List.range 10).foldl (fun s _ => chachaDoubleRound s) init
  (List.range 16).flatMap (fun i =>
    (List.range 4).map (fun j => (init.getD i 0 + final.getD i 0) % 2 ^ 32 / 256 ^ j % 256))

/-- Byte `i` of the ChaCha20 keystream (data blocks start at counter 1). -/
def chachaKeystreamByte (key nonce : List Nat) (i : Nat) : Nat :=
  (chacha20Block key (i / 64 + 1) nonce).getD (i % 64) 0

def chachaKeystream (key nonce : List Nat) (len : Nat) : List Nat :=
  (List.range len).map (chachaKeystreamByte key nonce)

def leBytesToNat (l : List Nat) : Nat :=
  l.foldr (fun b acc => b + 256 * acc) 0

/-- Poly1305 MAC (16 bytes) with the given 32-byte one-time key. -/
def poly1305 (key32 msg : List Nat) : List Nat :=
  let r := leBytesToNat (key32.take 16) &&& 0x0ffffffc0ffffffc0ffffffc0fffffff
  let s := leBytesToNat ((key32.drop 16).take 16)
  let acc := (List.range ((msg.length + 15) / 16)).foldl
    (fun acc i =>
      (acc + leBytesToNat ((msg.drop (16 * i)).take 16) +
        2 ^ (8 * ((msg.drop (16 * i)).take 16).length)) * r % (2 ^ 130 - 5))
    0
  (List.range 16).map (fun i => (acc + s) / 256 ^ i % 256)

def pad16 (l : List Nat) : List Nat :=
  List.replicate ((16 - l.length % 16) % 16) 0

/-- Data over which the AEAD tag is computed when no associated data is passed
(`chacha.encrypt(nonce, content, None)` in `main.py`). -/
def aeadMacData (ct : List Nat) : List Nat :=
  ct ++ pad16 ct ++ List.replicate 8 0 ++ (List.range 8).map (fun i => ct.length / 256 ^ i % 256)

/-- Model of `ChaCha20Poly1305(key).encrypt(nonce, pt, None)`: ciphertext
followed by the 16-byte Poly1305 tag. -/
def chacha20poly1305_encrypt (key nonce pt : List Nat) : List Nat :=
  List.zipWith (fun a b => a ^^^ b) pt (chachaKeystream key nonce pt.length) ++
    poly1305 ((chacha20Block key 0 nonce).take 32)
      (aeadMacData (List.zipWith (fun a b => a ^^^ b) pt (chachaKeystream key nonce pt.length)))

/-- Model of `ChaCha20Poly1305(key).decrypt(nonce, data, None)`: `none` models
`InvalidTag`. -/
def chacha20poly1305_decrypt (key nonce data : List Nat) : Option (List Nat) :=
  if data.length < 16 then none
  else
    if poly1305 ((chacha20Block key 0 nonce).take 32)
        (aeadMacData (data.take (data.length - 16))) = data.drop (data.length - 16) then
      some (List.zipWith (fun a b => a ^^^ b) (data.take (data.length - 16))
        (chachaKeystream key nonce (data.take (data.length - 16)).length))
    else none

theorem chachaKeystream_length (key nonce : List Nat) (len : Nat) :
    (chachaKeystream key nonce len).length = len := by
  simp [chachaKeystream]

theorem zipWith_xor_cancel :
    ∀ pt ks : List Nat, pt.length ≤ ks.length →
      List.zipWith (fun a b => a ^^^ b) (List.zipWith (fun a b => a ^^^ b) pt ks) ks = pt := by
  intro pt
  induction pt with
  | nil => intro ks _; simp
  | cons p pt ih =>
    intro ks h
    match ks with
    | [] => simp at h
    | k :: ks =>
      simp only [List.zipWith_cons_cons, List.cons.injEq]
      refine ⟨by simp [Nat.xor_assoc], ih ks (by simpa using h)⟩

theorem poly1305_length (key32 msg : List Nat) : (poly1305 key32 msg).length = 16 := by
  simp [poly1305]

theorem chacha20poly1305_decrypt_encrypt (key nonce pt : List Nat) :
    chacha20poly1305_decrypt key nonce (chacha20poly1305_encrypt key nonce pt) = some pt := by
  unfold chacha20poly1305_encrypt chacha20poly1305_decrypt
  have hct : (List.zipWith (fun a b => a ^^^ b) pt (chachaKeystream key nonce pt.length)).length
      = pt.length := by
    simp [List.length_zipWith, chachaKeystream_length]
  have hlen : (List.zipWith (fun a b => a ^^^ b) pt (chachaKeystream key nonce pt.length) ++
      poly1305 ((chacha20Block key 0 nonce).take 32)
        (aeadMacData (List.zipWith (fun a b => a ^^^ b) pt
          (chachaKeystream key nonce pt.length)))).length =
      pt.length + 16 := by
    rw [List.length_append, hct, poly1305_length]
  rw [if_neg (by omega)]
  have hsub : (List.zipWith (fun a b => a ^^^ b) pt (chachaKeystream key nonce pt.length) ++
      poly1305 ((chacha20Block key 0 nonce).take 32)
        (aeadMacData (List.zipWith (fun a b => a ^^^ b) pt
          (chachaKeystream key nonce pt.length)))).length - 16 =
      (List.zipWith (fun a b => a ^^^ b) pt (chachaKeystream key nonce pt.length)).length := by
    omega
  rw [hsub, List.take_left, List.drop_left, if_pos rfl, hct]
  exact congrArg some (zipWith_xor_cancel pt (chachaKeystream key nonce pt.length)
    (by rw [chachaKeystream_length]))

/-! ## `encrypt_content` / `decrypt_content` from `main.py`

The process-wide encryption key and the per-call `os.urandom(12)` nonce are
explicit parameters (randomness and process state externalized). -/

def encrypt_content (key nonce : List Nat) (content : String) : String × String :=
  (b64EncodeStr (chacha20poly1305_encrypt key nonce (utf8Encode content)), b64EncodeStr nonce)

def decrypt_content (key : List Nat) (encrypted_content_b64 nonce_b64 : String) : Option String := do
  let encrypted ← b64DecodeStr encrypted_content_b64
  let nonce ← b64DecodeStr nonce_b64
  let pt ← chacha20poly1305_decrypt key nonce encrypted
  let cs ← utf8Decode pt
  some (String.mk cs)

theorem chacha20Block_bytes_lt (key : List Nat) (counter : Nat) (nonce : List Nat) :
    ∀ b ∈ chacha20Block key counter nonce, b < 256 := by
  intro b hb
  unfold chacha20Block at hb
  rw [List.mem_flatMap] at hb
  obtain ⟨i, _, hi⟩ := hb
  rw [List.mem_map] at hi
  obtain ⟨j, _, rfl⟩ := hi
  exact Nat.mod_lt _ (by norm_num)

theorem getD_lt_of_all_lt (l : List Nat) (h : ∀ b ∈ l, b < 256) (i : Nat) :
    l.getD i 0 < 256 := by
  by_cases hi : i < l.length
  · rw [List.getD_eq_getElem l 0 hi]
    exact h _ (l.getElem_mem hi)
  · rw [List.getD_eq_default l 0 (by omega)]
    norm_num

theorem zipWith_xor_bytes_lt :
    ∀ pt ks : List Nat, (∀ b ∈ pt, b < 256) → (∀ b ∈ ks, b < 256) →
      ∀ b ∈ List.zipWith (fun a b => a ^^^ b) pt ks, b < 256
  | [], _, _, _ => by simp
  | _ :: _, [], _, _ => by simp
  | p :: pt, k :: ks, h1, h2 => by
    intro b hb
    rw [List.zipWith_cons_cons] at hb
    rcases List.mem_cons.mp hb with rfl | hb
    · have hp : p < 2 ^ 8 := by have := h1 p (by simp); omega
      have hk : k < 2 ^ 8 := by have := h2 k (by simp); omega
      have := Nat.xor_lt_two_pow hp hk
      omega
    · exact zipWith_xor_bytes_lt pt ks (fun x hx => h1 x (by simp [hx]))
        (fun x hx => h2 x (by simp [hx])) b hb

theorem chacha20poly1305_encrypt_bytes_lt (key nonce pt : List Nat)
    (hpt : ∀ b ∈ pt, b < 256) :
    ∀ b ∈ chacha20poly1305_encrypt key nonce pt, b < 256 := by
  intro b hb
  unfold chacha20poly1305_encrypt at hb
  rw [List.mem_append] at hb
  rcases hb with hb | hb
  · refine zipWith_xor_bytes_lt pt _ hpt ?_ b hb

    intro x hx
    unfold chachaKeystream at hx
    rw [List.mem_map] at hx
    obtain ⟨i, _, rfl⟩ := hx
    exact getD_lt_of_all_lt _ (chacha20Block_bytes_lt key _ nonce) _
  · unfold poly1305 at hb
    rw [List.mem_map] at hb
    obtain ⟨i, _, rfl⟩ := hb
    exact Nat.mod_lt _ (by norm_num)

/-- Round trip of the content encryption pipeline of `main.py`:
base64 and UTF-8 codecs plus the AEAD cancel exactly. -/
theorem decrypt_content_encrypt_content (key nonce : List Nat) (content : String)
    (hn : ∀ b ∈ nonce, b < 256) :
    decrypt_content key (encrypt_content key nonce content).1
      (encrypt_content key nonce content).2 = some content := by
  unfold encrypt_content decrypt_content
  rw [b64DecodeStr_b64EncodeStr _
    (chacha20poly1305_encrypt_bytes_lt key nonce _ (utf8Encode_bytes_lt content))]
  rw [Option.bind_eq_bind, Option.some_bind]
  rw [b64DecodeStr_b64EncodeStr nonce hn, Option.some_bind]
  rw [chacha20poly1305_decrypt_encrypt, Option.some_bind]
  rw [utf8Decode_utf8Encode]
  rfl

/-! ## Data model: the `secrets` collection and the stats singleton -/

/-- One document of the `secrets` collection, as built by `create_secret`.
`password_hash` is `none` when the key is absent from the document
(`secret_doc.get("password_hash")` then returns Python `None`). -/
structure SecretDoc where
  secret_id : String
  encrypted_content : String
  nonce : String
  created_at : Nat
  expires_at : Nat
  viewed : Bool
  password_protected : Bool
  password_hash : Option String
deriving DecidableEq

/-- The document store: the `secrets` collection plus the `"global"` stats
document (`total_created`, `total_viewed`). -/
structure Store where
  secrets : List SecretDoc
  total_created : Nat
  total_viewed : Nat
deriving DecidableEq

/-- Python truthiness of `Optional[str]`: `None` and `""` are falsy.  This is
the test `if not retrieve_data.access_password` / `and secret_data.access_password`. -/
def pyTruthy : Option String → Bool
  | none => false
  | some s => !(s == "")

/-- `cleanup_expired_secrets`: one atomic
`delete_many({"expires_at": {"$lt": current_time}})`; returns the new store and
the deleted count. -/
def cleanup_expired_secrets (now : Nat) (st : Store) : Store × Nat :=
  ({ st with secrets := st.secrets.filter (fun d => !decide (d.expires_at < now)) },
    st.secrets.length - (st.secrets.filter (fun d => !decide (d.expires_at < now))).length)

/-- `find_one({"secret_id": id})` on the secrets collection. -/
def find_one (st : Store) (secret_id : String) : Option SecretDoc :=
  st.secrets.find? (fun d => d.secret_id == secret_id)

/-- `update_one({"secret_id": id}, {"$set": {"viewed": True}})`: sets the flag
on the first matching document (Mongo `update_one` touches at most one). -/
def set_viewed_first : List SecretDoc → String → List SecretDoc
  | [], _ => []
  | d :: ds, secret_id =>
    if d.secret_id == secret_id then { d with viewed := true } :: ds
    else d :: set_viewed_first ds secret_id

/-- Outcome of `get_secret`, covering the `SecretContent` response and every
`HTTPException` branch (404 / 410 / 401 password required / 401 invalid
password / 500). -/
inductive RetrieveResult where
  | success (content : String) (created_at expires_at : Nat)
  | notFound
  | alreadyViewed
  | passwordRequired
  | invalidPassword
  | decryptionFailure
deriving DecidableEq

def RetrieveResult.isSuccess : RetrieveResult → Bool
  | .success _ _ _ => true
  | _ => false

/-- `get_secret` from `main.py`, as the sequential (single-request) function:
sweep, load, pre-checks, decrypt, then mark viewed and bump the counter.
`now` is the `datetime.utcnow()` reading inside `cleanup_expired_secrets`. -/
def get_secret (key : List Nat) (secret_id : String) (access_password : Option String)
    (now : Nat) (st : Store) : RetrieveResult × Store :=
  match find_one (cleanup_expired_secrets now st).1 secret_id with
  | none => (.notFound, (cleanup_expired_secrets now st).1)
  | some doc =>
    if doc.viewed then (.alreadyViewed, (cleanup_expired_secrets now st).1)
    else if doc.password_protected && !pyTruthy access_password then
      (.passwordRequired, (cleanup_expired_secrets now st).1)
    else if doc.password_protected &&
        !(doc.password_hash == some (hash_password (access_password.getD ""))) then
      (.invalidPassword, (cleanup_expired_secrets now st).1)
    else
      match decrypt_content key doc.encrypted_content doc.nonce with
      | none => (.decryptionFailure, (cleanup_expired_secrets now st).1)
      | some content =>
        (.success content doc.created_at doc.expires_at,
          { secrets := set_viewed_first (cleanup_expired_secrets now st).1.secrets secret_id,
            total_created := (cleanup_expired_secrets now st).1.total_created,
            total_viewed := (cleanup_expired_secrets now st).1.total_viewed + 1 })

/-- The response of `get_secret_info` (always carries `exists: True`). -/
structure InfoResponse where
  info_exists : Bool
  created_at : Nat
  expires_at : Nat
  password_protected : Bool
  viewed : Bool
deriving DecidableEq

/-- `get_secret_info` from `main.py`: a bare `find_one` with a projection —
no sweep, no expiry comparison; `none` models the 404. -/
def get_secret_info (st : Store) (secret_id : String) : Option InfoResponse :=
  match find_one st secret_id with
  | none => none
  | some d => some ⟨true, d.created_at, d.expires_at, d.password_protected, d.viewed⟩

/-- The validated request body `SecretCreate` (its pydantic `Field` bounds are
`validSecretCreate` below). -/
structure SecretCreate where
  content : String
  ttl_hours : Nat
  password_protected : Bool
  access_password : Option String

/-- The pydantic validation contract of `SecretCreate`:
`content` 1–10000 characters, `ttl_hours` 1–168. -/
def validSecretCreate (d : SecretCreate) : Prop :=
  1 ≤ d.content.length ∧ d.content.length ≤ 10000 ∧ 1 ≤ d.ttl_hours ∧ d.ttl_hours ≤ 168

instance (d : SecretCreate) : Decidable (validSecretCreate d) := by
  unfold validSecretCreate
  infer_instance

/-- The `while True: generate / find_one / break` allocation loop, with the
stream of `generate_secret_id()` outputs made explicit: the loop takes the
first candidate not already present (`none` only when the finite candidate
list is exhausted — the unbounded source-level loop keeps drawing). -/
def alloc_secret_id (st : Store) : List String → Option String
  | [] => none
  | c :: cs => if (find_one st c).isNone then some c else alloc_secret_id st cs

/-- `create_secret` from `main.py`.  `t1` is the `utcnow()` reading used for
`expires_at` (line `expires_at = datetime.utcnow() + timedelta(...)`), `t2`
the later `utcnow()` reading stored as `created_at`; `nonce` is the
`os.urandom(12)` draw; `candidates` the id-generator stream.  Returns the
`SecretResponse` payload `(secret_id, expires_at)` and the new store. -/
def create_secret (key : List Nat) (data : SecretCreate) (candidates : List String)
    (t1 t2 : Nat) (nonce : List Nat) (st : Store) : Option ((String × Nat) × Store) :=
  match alloc_secret_id st candidates with
  | none => none
  | some sid =>
    some ((sid, t1 + data.ttl_hours * 3600),
      { secrets := st.secrets ++
          [{ secret_id := sid,
             encrypted_content := (encrypt_content key nonce data.content).1,
             nonce := (encrypt_content key nonce data.content).2,
             created_at := t2,
             expires_at := t1 + data.ttl_hours * 3600,
             viewed := false,
             password_protected := data.password_protected,
             password_hash :=
               if data.password_protected && pyTruthy data.access_password then
                 some (hash_password (data.access_password.getD ""))
               else none }],
        total_created := st.total_created + 1,
        total_viewed := st.total_viewed })

/-! ## Concurrency model of `get_secret`

Request handlers are asyncio coroutines: they interleave only at `await`
points, and each awaited store call (`asyncio.to_thread(...)`) is atomic.
`get_secret` thus decomposes into four atomic units: the sweep; the
`find_one` together with the purely local checks and decryption that follow
it; the `update_one` setting `viewed`; the `$inc` of `total_viewed`.  A
failure path responds without further store operations. -/

/-- Progress of one in-flight `get_secret` coroutine between await points. -/
inductive HPhase where
  | hstart
  | cleaned
  | failedPhase (r : RetrieveResult)
  | decided (content : String) (created_at expires_at : Nat)
  | marked (content : String) (created_at expires_at : Nat)
  | finished (r : RetrieveResult)
deriving DecidableEq

/-- One atomic step of a `get_secret` handler for `(secret_id, access_password)`. -/
def handler_step (key : List Nat) (secret_id : String) (access_password : Option String)
    (now : Nat) : HPhase × Store → HPhase × Store
  | (.hstart, st) => (.cleaned, (cleanup_expired_secrets now st).1)
  | (.cleaned, st) =>
    match find_one st secret_id with
    | none => (.failedPhase .notFound, st)
    | some doc =>
      if doc.viewed then (.failedPhase .alreadyViewed, st)
      else if doc.password_protected && !pyTruthy access_password then
        (.failedPhase .passwordRequired, st)
      else if doc.password_protected &&
          !(doc.password_hash == some (hash_password (access_password.getD ""))) then
        (.failedPhase .invalidPassword, st)
      else
        match decrypt_content key doc.encrypted_content doc.nonce with
        | none => (.failedPhase .decryptionFailure, st)
        | some content => (.decided content doc.created_at doc.expires_at, st)
  | (.failedPhase r, st) => (.finished r, st)
  | (.decided c ca ea, st) =>
    (.marked c ca ea, { st with secrets := set_viewed_first st.secrets secret_id })
  | (.marked c ca ea, st) =>
    (.finished (.success c ca ea), { st with total_viewed := st.total_viewed + 1 })
  | (.finished r, st) => (.finished r, st)

/-- Run two concurrent `get_secret` requests A and B under a schedule:
`true` steps handler A, `false` steps handler B. -/
def run2 (key : List Nat) (idA : String) (pwA : Option String) (idB : String)
    (pwB : Option String) (now : Nat) :
    List Bool → HPhase × HPhase × Store → HPhase × HPhase × Store
  | [], s => s
  | b :: sched, (pa, pb, st) =>
    if b then
      run2 key idA pwA idB pwB now sched
        ((handler_step key idA pwA now (pa, st)).1, pb, (handler_step key idA pwA now (pa, st)).2)
    else
      run2 key idA pwA idB pwB now sched
        (pa, (handler_step key idB pwB now (pb, st)).1, (handler_step key idB pwB now (pb, st)).2)

/-! ## Sequential operation traces (for the stats counters) -/

/-- One API operation, with its ambient inputs (clock readings, id-generator
stream, nonce draw) made explicit. -/
inductive Op where
  | create (data : SecretCreate) (candidates : List String) (t1 t2 : Nat) (nonce : List Nat)
  | retrieve (secret_id : String) (access_password : Option String) (now : Nat)

/-- State after one operation (a `create` whose id allocation fails leaves the
store unchanged; in the source the unbounded generator loop never gives up). -/
def apply_op (key : List Nat) (st : Store) : Op → Store
  | .create data candidates t1 t2 nonce =>
    match create_secret key data candidates t1 t2 nonce st with
    | none => st
    | some (_, st2) => st2
  | .retrieve secret_id access_password now => (get_secret key secret_id access_password now st).2

def run_ops (key : List Nat) : List Op → Store → Store
  | [], st => st
  | op :: ops, st => run_ops key ops (apply_op key st op)

/-- Number of successful `create` operations along a trace. -/
def created_successes (key : List Nat) : List Op → Store → Nat
  | [], _ => 0
  | .create data candidates t1 t2 nonce :: ops, st =>
    (if (create_secret key data candidates t1 t2 nonce st).isSome then 1 else 0) +
      created_successes key ops (apply_op key st (.create data candidates t1 t2 nonce))
  | .retrieve secret_id access_password now :: ops, st =>
    created_successes key ops (apply_op key st (.retrieve secret_id access_password now))

/-- Number of successful `retrieve` operations along a trace. -/
def viewed_successes (key : List Nat) : List Op → Store → Nat
  | [], _ => 0
  | .create data candidates t1 t2 nonce :: ops, st =>
    viewed_successes key ops (apply_op key st (.create data candidates t1 t2 nonce))
  | .retrieve secret_id access_password now :: ops, st =>
    (if ((get_secret key secret_id access_password now st).1.isSuccess) then 1 else 0) +
      viewed_successes key ops (apply_op key st (.retrieve secret_id access_password now))

/-- The store before any operation: empty collection, zero counters (the
startup handler inserts `total_created = 0, total_viewed = 0`). -/
def zeroStore : Store :=
  { secrets := [], total_created := 0, total_viewed := 0 }

/-! ## Concrete fixtures used by witnesses and counterexamples -/

/-- A concrete 32-byte process key. -/
def key0 : List Nat := List.range 32

/-- A concrete 12-byte nonce draw. -/
def nonce0 : List Nat := List.range 12

/-- A pending, unexpired, unprotected secret holding `"s"`, as `create_secret`
stores it. -/
def doc1 : SecretDoc :=
  { secret_id := "abcd1234",
    encrypted_content := (encrypt_content key0 nonce0 "s").1,
    nonce := (encrypt_content key0 nonce0 "s").2,
    created_at := 0, expires_at := 100, viewed := false,
    password_protected := false, password_hash := none }

def store1 : Store := { secrets := [doc1], total_created := 1, total_viewed := 0 }

/-! ## Claims -/

set_option maxRecDepth 100000

/-- C1: the spec claims at-most-once delivery — of N concurrent Retrieve(id)
calls exactly one receives plaintext, the consumed flip and the plaintext
release being one atomic operation.  The code has no such atomic step: it
reads the document, checks `viewed`, decrypts, and only later issues an
unconditional `update_one`.  Under the interleaving in which both handlers
pass their read before either write (schedule A,A,B,B,A,A,B,B over the four
await-separated units), both concurrent retrievals of the same pending secret
finish with the plaintext and `total_viewed` reaches 2. -/
theorem C1_two_concurrent_retrieves_both_succeed :
    (run2 key0 "abcd1234" none "abcd1234" none 50
        [true, true, false, false, true, true, false, false]
        (.hstart, .hstart, store1)).1 = .finished (.success "s" 0 100) ∧
    (run2 key0 "abcd1234" none "abcd1234" none 50
        [true, true, false, false, true, true, false, false]
        (.hstart, .hstart, store1)).2.1 = .finished (.success "s" 0 100) ∧
    (run2 key0 "abcd1234" none "abcd1234" none 50
        [true, true, false, false, true, true, false, false]
        (.hstart, .hstart, store1)).2.2.total_viewed = 2 := by
  decide

/-- C3: for content of length 1–10000, creating (encrypting) and then
retrieving (decrypting with the stored nonce under the same key) returns the
original content: `decrypt_content` inverts `encrypt_content`. -/
theorem C3_decrypt_encrypt_roundtrip (key nonce : List Nat) (content : String)
    (hnonce : ∀ b ∈ nonce, b < 256)
    (hlen1 : 1 ≤ content.length) (hlen2 : content.length ≤ 10000) :
    decrypt_content key (encrypt_content key nonce content).1
      (encrypt_content key nonce content).2 = some content :=
  decrypt_content_encrypt_content key nonce content hnonce

/-- Witness for C3 at key `0..31`, nonce `0..11`, content `"hi"`. -/
theorem C3_decrypt_encrypt_roundtrip_witness :
    (∀ b ∈ nonce0, b < 256) ∧ 1 ≤ ("hi" : String).length ∧ ("hi" : String).length ≤ 10000 ∧
    decrypt_content key0 (encrypt_content key0 nonce0 "hi").1
      (encrypt_content key0 nonce0 "hi").2 = some "hi" :=
  ⟨by decide, by decide, by decide,
    C3_decrypt_encrypt_roundtrip key0 nonce0 "hi" (by decide) (by decide) (by decide)⟩

/-- An expired (at any `now > 10`) but still stored, never-viewed secret. -/
def doc2 : SecretDoc :=
  { secret_id := "expired1", encrypted_content := "x", nonce := "y",
    created_at := 0, expires_at := 10, viewed := false,
    password_protected := false, password_hash := none }

def store2 : Store := { secrets := [doc2], total_created := 1, total_viewed := 0 }

theorem find_one_cleanup_eq_none (sid : String) (now : Nat) (st : Store)
    (h : ∀ d ∈ st.secrets, d.secret_id = sid → d.expires_at < now) :
    find_one (cleanup_expired_secrets now st).1 sid = none := by
  unfold find_one cleanup_expired_secrets
  rw [List.find?_eq_none]
  intro d hd
  rw [List.mem_filter] at hd
  obtain ⟨hmem, hkeep⟩ := hd
  simp only [beq_iff_eq]
  intro heq
  have := h d hmem heq
  simp at hkeep
  omega

/-- C2 counterexample: `get_secret_info` performs no expiry check and no
sweep, so at time 50 (well past `expires_at = 10`) it still returns the
expired record's metadata instead of NotFound. -/
theorem C2_info_returns_expired_metadata :
    doc2.expires_at < 50 ∧
    get_secret_info store2 "expired1" = some ⟨true, 0, 10, false, false⟩ := by
  decide

/-- C2 (amended): Retrieve on a record whose `expires_at` has strictly passed
always fails with NotFound and changes nothing beyond the sweep itself — the
in-call sweep deletes the record before the lookup; `get_secret_info`,
however, is a bare projection of `find_one` and performs no expiry filtering
at all, so it returns stored metadata even for expired records (their removal
is left to sweeps triggered by other endpoints and the store's TTL index). -/
theorem C2_expired_retrieve_not_found (key : List Nat) (sid : String) (pw : Option String)
    (now : Nat) (st : Store)
    (h : ∀ d ∈ st.secrets, d.secret_id = sid → d.expires_at < now) :
    (get_secret key sid pw now st).1 = .notFound ∧
    (get_secret key sid pw now st).2 = (cleanup_expired_secrets now st).1 ∧
    ∀ (st2 : Store) (sid2 : String),
      get_secret_info st2 sid2 = (find_one st2 sid2).map
        (fun d => ⟨true, d.created_at, d.expires_at, d.password_protected, d.viewed⟩) := by
  have hf := find_one_cleanup_eq_none sid now st h
  refine ⟨?_, ?_, ?_⟩
  · simp only [get_secret, hf]
  · simp only [get_secret, hf]
  · intro st2 sid2
    unfold get_secret_info
    cases find_one st2 sid2 <;> rfl

/-- Witness for C2 at the expired fixture `store2`, `now = 50`. -/
theorem C2_expired_retrieve_not_found_witness :
    (∀ d ∈ store2.secrets, d.secret_id = "expired1" → d.expires_at < 50) ∧
    (get_secret key0 "expired1" none 50 store2).1 = .notFound :=
  ⟨by decide, (C2_expired_retrieve_not_found key0 "expired1" none 50 store2 (by decide)).1⟩

theorem get_secret_snd_of_not_success (key : List Nat) (sid : String) (pw : Option String)
    (now : Nat) (st : Store)
    (hfail : (get_secret key sid pw now st).1.isSuccess = false) :
    (get_secret key sid pw now st).2 = (cleanup_expired_secrets now st).1 := by
  rcases hf : find_one (cleanup_expired_secrets now st).1 sid with _ | doc
  · simp only [get_secret, hf]
  · simp only [get_secret, hf] at hfail ⊢
    by_cases hv : doc.viewed = true
    · simp [hv]
    · simp only [Bool.not_eq_true] at hv
      by_cases hp1 : (doc.password_protected && !pyTruthy pw) = true
      · simp [hv, hp1]
      · by_cases hp2 : (doc.password_protected &&
            !(doc.password_hash == some (hash_password (pw.getD "")))) = true
        · simp [hv, hp1, hp2]
        · rcases hd : decrypt_content key doc.encrypted_content doc.nonce with _ | content
          · simp [hv, hp1, hp2, hd]
          · simp [hv, hp1, hp2, hd, RetrieveResult.isSuccess] at hfail

/-- C4: a Retrieve that fails for any reason (absent record, already viewed,
password required, password mismatch, decryption failure) mutates nothing
beyond the expiry sweep that every `get_secret` call begins with: the store
becomes exactly the swept store, every unexpired record (in particular the
target, if unexpired) survives with all fields unchanged, no record is added,
and neither counter moves. -/
theorem C4_failed_retrieve_no_mutation (key : List Nat) (sid : String) (pw : Option String)
    (now : Nat) (st : Store)
    (hfail : (get_secret key sid pw now st).1.isSuccess = false) :
    (get_secret key sid pw now st).2 = (cleanup_expired_secrets now st).1 ∧
    (get_secret key sid pw now st).2.total_viewed = st.total_viewed ∧
    (get_secret key sid pw now st).2.total_created = st.total_created ∧
    (∀ d ∈ st.secrets, ¬d.expires_at < now → d ∈ (get_secret key sid pw now st).2.secrets) ∧
    (∀ d ∈ (get_secret key sid pw now st).2.secrets, d ∈ st.secrets) := by
  have h2 := get_secret_snd_of_not_success key sid pw now st hfail
  rw [h2]
  refine ⟨rfl, rfl, rfl, ?_, ?_⟩
  · intro d hd hexp
    unfold cleanup_expired_secrets
    rw [List.mem_filter]
    exact ⟨hd, by simpa using hexp⟩
  · intro d hd
    unfold cleanup_expired_secrets at hd
    rw [List.mem_filter] at hd
    exact hd.1

/-- Witness for C4 at a retrieve of an id absent from `store1`. -/
theorem C4_failed_retrieve_no_mutation_witness :
    (get_secret key0 "missing0" none 50 store1).1.isSuccess = false ∧
    (get_secret key0 "missing0" none 50 store1).2.total_viewed = store1.total_viewed :=
  ⟨by decide, (C4_failed_retrieve_no_mutation key0 "missing0" none 50 store1 (by decide)).2.1⟩

/-- A pending protected secret with stored hash of password `"p"`. -/
def doc3 : SecretDoc :=
  { secret_id := "prot1", encrypted_content := "x", nonce := "y",
    created_at := 0, expires_at := 100, viewed := false,
    password_protected := true, password_hash := some (hash_password "p") }

def store3 : Store := { secrets := [doc3], total_created := 1, total_viewed := 0 }

/-- C5 counterexample: the claim's step 4 predicts InvalidPassword whenever a
password is supplied whose hash differs from the stored hash; but supplying
the empty string — a password whose hash differs from the stored one — yields
PasswordRequired, because `if not retrieve_data.access_password` treats `""`
as falsy before the hash ever gets compared. -/
theorem C5_empty_password_gets_password_required :
    doc3.password_protected = true ∧ doc3.viewed = false ∧
    some (hash_password "") ≠ doc3.password_hash ∧
    (get_secret key0 "prot1" (some "") 50 store3).1 = .passwordRequired := by
  decide

/-- C5 (amended): the checks of `get_secret` short-circuit in the claimed
order — absent record ⇒ NotFound (404); already viewed ⇒ AlreadyViewed (410);
protected and no *usable* password (absent or empty string, both falsy in
Python) ⇒ PasswordRequired (401); protected and a non-empty password whose
hash differs from the stored hash ⇒ InvalidPassword (401); and a non-empty
password matching the stored hash on a pending protected record retrieves the
content (when decryption succeeds). -/
theorem C5_check_order (key : List Nat) (sid : String) (pw : Option String) (now : Nat)
    (st : Store) :
    (find_one (cleanup_expired_secrets now st).1 sid = none →
      (get_secret key sid pw now st).1 = .notFound) ∧
    (∀ doc, find_one (cleanup_expired_secrets now st).1 sid = some doc →
      doc.viewed = true → (get_secret key sid pw now st).1 = .alreadyViewed) ∧
    (∀ doc, find_one (cleanup_expired_secrets now st).1 sid = some doc →
      doc.viewed = false → doc.password_protected = true → pyTruthy pw = false →
      (get_secret key sid pw now st).1 = .passwordRequired) ∧
    (∀ doc p, find_one (cleanup_expired_secrets now st).1 sid = some doc →
      doc.viewed = false → doc.password_protected = true → pw = some p → p ≠ "" →
      doc.password_hash ≠ some (hash_password p) →
      (get_secret key sid pw now st).1 = .invalidPassword) ∧
    (∀ doc p content, find_one (cleanup_expired_secrets now st).1 sid = some doc →
      doc.viewed = false → doc.password_protected = true → pw = some p → p ≠ "" →
      doc.password_hash = some (hash_password p) →
      decrypt_content key doc.encrypted_content doc.nonce = some content →
      (get_secret key sid pw now st).1 = .success content doc.created_at doc.expires_at) := by
  refine ⟨?_, ?_, ?_, ?_, ?_⟩
  · intro hf
    simp only [get_secret, hf]
  · intro doc hf hv
    simp only [get_secret, hf, hv]
    rfl
  · intro doc hf hv hp hpw
    simp [get_secret, hf, hv, hp, hpw]
  · intro doc p hf hv hp hpw hne hhash
    subst hpw
    have hhash2 : (doc.password_hash == some (hash_password p)) = false := by
      simpa using hhash
    simp [get_secret, hf, hv, hp, pyTruthy, hne, hhash2]
  · intro doc p content hf hv hp hpw hne hhash hd
    subst hpw
    have hhash2 : (doc.password_hash == some (hash_password p)) = true := by
      simpa using hhash
    simp [get_secret, hf, hv, hp, pyTruthy, hne, hhash2, hd]

/-- Witness for C5 exercising the PasswordRequired branch on `store3`. -/
theorem C5_check_order_witness :
    find_one (cleanup_expired_secrets 50 store3).1 "prot1" = some doc3 ∧
    (get_secret key0 "prot1" none 50 store3).1 = .passwordRequired :=
  ⟨by decide,
    (C5_check_order key0 "prot1" none 50 store3).2.2.1 doc3 (by decide) (by decide)
      (by decide) (by decide)⟩

/-- A pending unprotected secret whose stored blob is valid base64 of 32 bytes
that fail AEAD tag verification (decryption raises). -/
def doc4 : SecretDoc :=
  { secret_id := "corrupt1", encrypted_content := b64EncodeStr (List.replicate 32 0),
    nonce := b64EncodeStr nonce0, created_at := 0, expires_at := 100, viewed := false,
    password_protected := false, password_hash := none }

def store4 : Store := { secrets := [doc4], total_created := 1, total_viewed := 0 }

/-- C6 counterexample: the claim says the consuming step runs before
decryption is attempted, so a record whose decryption fails would already be
consumed.  In the code decryption comes first: on a record whose stored bytes
fail tag verification, `get_secret` answers DecryptionFailure while the store
is completely untouched — the record is still present with `viewed = false`. -/
theorem C6_decryption_failure_leaves_record_unconsumed :
    (get_secret key0 "corrupt1" none 50 store4).1 = .decryptionFailure ∧
    (get_secret key0 "corrupt1" none 50 store4).2 = store4 ∧
    find_one (get_secret key0 "corrupt1" none 50 store4).2 "corrupt1" = some doc4 ∧
    doc4.viewed = false := by
  decide

/-- C6 (amended): `get_secret` has no atomic `try_consume`.  After the
pre-checks it decrypts first; a decryption failure yields DecryptionFailure
(500) with the store unchanged beyond the sweep (the record stays
unconsumed), and only after a successful decryption does an unconditional
`update_one` set `viewed := true` (no re-check of `consumed`/`expires_at`)
followed by the `total_viewed` increment. -/
theorem C6_decrypt_then_mark (key : List Nat) (sid : String) (pw : Option String) (now : Nat)
    (st : Store) (doc : SecretDoc)
    (hf : find_one (cleanup_expired_secrets now st).1 sid = some doc)
    (hv : doc.viewed = false)
    (hauth : doc.password_protected = false ∨
      (∃ p, pw = some p ∧ p ≠ "" ∧ doc.password_hash = some (hash_password p))) :
    (decrypt_content key doc.encrypted_content doc.nonce = none →
      (get_secret key sid pw now st).1 = .decryptionFailure ∧
      (get_secret key sid pw now st).2 = (cleanup_expired_secrets now st).1) ∧
    (∀ content, decrypt_content key doc.encrypted_content doc.nonce = some content →
      (get_secret key sid pw now st).1 = .success content doc.created_at doc.expires_at ∧
      (get_secret key sid pw now st).2.secrets =
        set_viewed_first (cleanup_expired_secrets now st).1.secrets sid ∧
      (get_secret key sid pw now st).2.total_viewed = st.total_viewed + 1) := by
  rcases hauth with hp | ⟨p, hpw, hne, hhash⟩
  · constructor
    · intro hd
      constructor <;> simp [get_secret, hf, hv, hp, hd]
    · intro content hd
      refine ⟨?_, ?_, ?_⟩ <;> simp [get_secret, hf, hv, hp, hd] <;> rfl
  · subst hpw
    have hhash2 : (doc.password_hash == some (hash_password p)) = true := by
      simpa using hhash
    have hp2 : doc.password_protected = true ∨ doc.password_protected = false := by
      cases doc.password_protected <;> simp
    rcases hp2 with hp | hp
    · constructor
      · intro hd
        constructor <;> simp [get_secret, hf, hv, hp, pyTruthy, hne, hhash2, hd]
      · intro content hd
        refine ⟨?_, ?_, ?_⟩ <;> simp [get_secret, hf, hv, hp, pyTruthy, hne, hhash2, hd] <;> rfl
    · constructor
      · intro hd
        constructor <;> simp [get_secret, hf, hv, hp, hd]
      · intro content hd
        refine ⟨?_, ?_, ?_⟩ <;> simp [get_secret, hf, hv, hp, hd] <;> rfl

/-- Witness for C6 at the corrupted fixture `store4`. -/
theorem C6_decrypt_then_mark_witness :
    find_one (cleanup_expired_secrets 50 store4).1 "corrupt1" = some doc4 ∧
    decrypt_content key0 doc4.encrypted_content doc4.nonce = none ∧
    (get_secret key0 "corrupt1" none 50 store4).1 = .decryptionFailure :=
  ⟨by decide, by decide,
    ((C6_decrypt_then_mark key0 "corrupt1" none 50 store4 doc4 (by decide) (by decide)
      (Or.inl (by decide))).1 (by decide)).1⟩

/-- A record stored by `create_secret` with `password_protected=true` but no
usable password, hence no `password_hash` key. -/
def doc5 : SecretDoc :=
  { secret_id := "prot2", encrypted_content := "x", nonce := "y",
    created_at := 0, expires_at := 100, viewed := false,
    password_protected := true, password_hash := none }

def store5 : Store := { secrets := [doc5], total_created := 1, total_viewed := 0 }

/-- C7 counterexample: the claim predicts that *any* supplied password on a
hashless protected record fails the hash comparison with InvalidPassword; but
the supplied empty string is falsy, so the code answers PasswordRequired
without ever comparing hashes. -/
theorem C7_empty_password_not_invalid_password :
    doc5.password_protected = true ∧ doc5.password_hash = none ∧
    (get_secret key0 "prot2" (some "") 50 store5).1 = .passwordRequired ∧
    (get_secret key0 "prot2" (some "") 50 store5).1 ≠ .invalidPassword := by
  decide

/-- C7 (amended): a protected record stored without a password hash can never
be retrieved through the password branch: a falsy supplied password (absent
or the empty string) gives PasswordRequired, any non-empty password gives
InvalidPassword (its hash, a string, never equals the absent stored hash),
and the retrieval never succeeds. -/
theorem C7_hashless_protected_never_succeeds (key : List Nat) (sid : String)
    (pw : Option String) (now : Nat) (st : Store) (doc : SecretDoc)
    (hf : find_one (cleanup_expired_secrets now st).1 sid = some doc)
    (hv : doc.viewed = false)
    (hp : doc.password_protected = true)
    (hh : doc.password_hash = none) :
    (pyTruthy pw = false → (get_secret key sid pw now st).1 = .passwordRequired) ∧
    (∀ p, pw = some p → p ≠ "" → (get_secret key sid pw now st).1 = .invalidPassword) ∧
    (get_secret key sid pw now st).1.isSuccess = false := by
  refine ⟨?_, ?_, ?_⟩
  · intro hpw
    simp [get_secret, hf, hv, hp, hpw]
  · intro p hpw hne
    subst hpw
    simp [get_secret, hf, hv, hp, pyTruthy, hne, hh]
  · rcases hpt : pyTruthy pw with _ | _
    · simp [get_secret, hf, hv, hp, hpt, RetrieveResult.isSuccess]
    · simp [get_secret, hf, hv, hp, hpt, hh, RetrieveResult.isSuccess]

/-- Witness for C7 on `store5`, exercising both failure shapes. -/
theorem C7_hashless_protected_never_succeeds_witness :
    find_one (cleanup_expired_secrets 50 store5).1 "prot2" = some doc5 ∧
    (get_secret key0 "prot2" none 50 store5).1 = .passwordRequired ∧
    (get_secret key0 "prot2" (some "guess") 50 store5).1 = .invalidPassword :=
  ⟨by decide,
    (C7_hashless_protected_never_succeeds key0 "prot2" none 50 store5 doc5 (by decide)
      (by decide) (by decide) (by decide)).1 (by decide),
    (C7_hashless_protected_never_succeeds key0 "prot2" (some "guess") 50 store5 doc5 (by decide)
      (by decide) (by decide) (by decide)).2.1 "guess" rfl (by decide)⟩

/-- A valid creation request: one character of content, one hour of TTL. -/
def cdata : SecretCreate :=
  { content := "a", ttl_hours := 1, password_protected := false, access_password := none }

/-- C8 counterexample: `expires_at` is computed from the `utcnow()` reading at
the top of `create_secret` while `created_at` is a *second*, later `utcnow()`
reading; with the clock advancing one tick between the two reads (t1 = 0,
t2 = 1) the stored record violates `expires_at = created_at + ttl`. -/
theorem C8_two_clock_readings_break_equation :
    validSecretCreate cdata ∧
    (create_secret key0 cdata ["newid123"] 0 1 nonce0 zeroStore).isSome = true ∧
    ((((create_secret key0 cdata ["newid123"] 0 1 nonce0 zeroStore).getD
        (("", 0), zeroStore)).2.secrets.getD 0 doc1).expires_at ≠
      (((create_secret key0 cdata ["newid123"] 0 1 nonce0 zeroStore).getD
        (("", 0), zeroStore)).2.secrets.getD 0 doc1).created_at + cdata.ttl_hours * 3600) := by
  decide

/-- C8 (amended): for a validated request (`ttl_hours` bounded to [1, 168]),
a successful create stores `expires_at = t1 + ttl_hours * 3600` where `t1` is
the clock reading taken at the start of the call, and stores as `created_at`
the later clock reading `t2`; the spec equation
`expires_at = created_at + ttl` therefore holds exactly when the two readings
coincide. -/
theorem C8_expires_at_from_create_clock (key : List Nat) (data : SecretCreate)
    (candidates : List String) (t1 t2 : Nat) (nonce : List Nat) (st : Store)
    (sid : String) (ea : Nat) (st2 : Store)
    (hvalid : validSecretCreate data)
    (hc : create_secret key data candidates t1 t2 nonce st = some ((sid, ea), st2)) :
    ea = t1 + data.ttl_hours * 3600 ∧
    1 ≤ data.ttl_hours ∧ data.ttl_hours ≤ 168 ∧
    ∃ doc : SecretDoc, st2.secrets = st.secrets ++ [doc] ∧ doc.created_at = t2 ∧
      doc.expires_at = t1 + data.ttl_hours * 3600 ∧
      (t1 = t2 → doc.expires_at = doc.created_at + data.ttl_hours * 3600) := by
  unfold create_secret at hc
  rcases ha : alloc_secret_id st candidates with _ | sid2
  · rw [ha] at hc
    simp at hc
  · rw [ha] at hc
    have h := Option.some.inj hc
    have hea : ea = t1 + data.ttl_hours * 3600 := (congrArg (fun x => x.1.2) h).symm
    have hst : st2 = _ := (congrArg Prod.snd h).symm
    subst hst
    exact ⟨hea, hvalid.2.2.1, hvalid.2.2.2,
      ⟨_, rfl, rfl, rfl, fun ht => by subst ht; rfl⟩⟩

/-- The result of a concrete successful create at `t1 = t2 = 0`. -/
def createRes8 : (String × Nat) × Store :=
  (create_secret key0 cdata ["newid123"] 0 0 nonce0 zeroStore).getD (("", 0), zeroStore)

/-- Witness for C8 at `t1 = t2 = 0`. -/
theorem C8_expires_at_from_create_clock_witness :
    validSecretCreate cdata ∧
    create_secret key0 cdata ["newid123"] 0 0 nonce0 zeroStore =
      some ((createRes8.1.1, createRes8.1.2), createRes8.2) ∧
    createRes8.1.2 = 0 + cdata.ttl_hours * 3600 :=
  ⟨by decide, by decide,
    (C8_expires_at_from_create_clock key0 cdata ["newid123"] 0 0 nonce0 zeroStore
      createRes8.1.1 createRes8.1.2 createRes8.2 (by decide) (by decide)).1⟩

theorem get_secret_total_created_eq (key : List Nat) (sid : String) (pw : Option String)
    (now : Nat) (st : Store) :
    (get_secret key sid pw now st).2.total_created = st.total_created := by
  unfold get_secret
  repeat' split
  all_goals rfl

theorem get_secret_total_viewed_eq (key : List Nat) (sid : String) (pw : Option String)
    (now : Nat) (st : Store) :
    (get_secret key sid pw now st).2.total_viewed =
      st.total_viewed + (if (get_secret key sid pw now st).1.isSuccess then 1 else 0) := by
  unfold get_secret
  repeat' split
  all_goals simp_all [RetrieveResult.isSuccess, cleanup_expired_secrets]

theorem apply_op_create_counters (key : List Nat) (data : SecretCreate)
    (candidates : List String) (t1 t2 : Nat) (nonce : List Nat) (st : Store) :
    (apply_op key st (.create data candidates t1 t2 nonce)).total_created =
      st.total_created +
        (if (create_secret key data candidates t1 t2 nonce st).isSome then 1 else 0) ∧
    (apply_op key st (.create data candidates t1 t2 nonce)).total_viewed = st.total_viewed := by
  unfold apply_op
  rcases hc : create_secret key data candidates t1 t2 nonce st with _ | r
  · simp [hc]
  · simp only [hc, Option.isSome_some, if_true]
    unfold create_secret at hc
    rcases ha : alloc_secret_id st candidates with _ | sid
    · rw [ha] at hc
      simp at hc
    · rw [ha] at hc
      have h := Option.some.inj hc
      rw [← h]
      exact ⟨rfl, rfl⟩

theorem run_ops_total_created (key : List Nat) :
    ∀ (ops : List Op) (st : Store),
      (run_ops key ops st).total_created = st.total_created + created_successes key ops st
  | [], st => by simp [run_ops, created_successes]
  | .create d c t1 t2 n :: ops, st => by
    rw [run_ops, created_successes, run_ops_total_created key ops]
    have := (apply_op_create_counters key d c t1 t2 n st).1
    omega
  | .retrieve sid pw now :: ops, st => by
    rw [run_ops, created_successes, run_ops_total_created key ops]
    have := get_secret_total_created_eq key sid pw now st
    simp only [apply_op]
    omega

theorem run_ops_total_viewed (key : List Nat) :
    ∀ (ops : List Op) (st : Store),
      (run_ops key ops st).total_viewed = st.total_viewed + viewed_successes key ops st
  | [], st => by simp [run_ops, viewed_successes]
  | .create d c t1 t2 n :: ops, st => by
    rw [run_ops, viewed_successes, run_ops_total_viewed key ops]
    have := (apply_op_create_counters key d c t1 t2 n st).2
    omega
  | .retrieve sid pw now :: ops, st => by
    rw [run_ops, viewed_successes, run_ops_total_viewed key ops]
    have := get_secret_total_viewed_eq key sid pw now st
    simp only [apply_op]
    by_cases hs : (get_secret key sid pw now st).1.isSuccess = true
    · simp only [hs, if_true] at this ⊢
      omega
    · simp only [hs, if_false, Bool.false_eq_true] at this ⊢
      omega

/-- C9: starting from zero counters, after any trace of operations the stored
`total_created` equals the number of creates that succeeded and
`total_viewed` equals the number of retrieves that succeeded — each counter
is bumped exactly once per successful transition — and from any store both
counters are monotonically non-decreasing along any trace. -/
theorem C9_stats_accuracy (key : List Nat) (ops : List Op) :
    (run_ops key ops zeroStore).total_created = created_successes key ops zeroStore ∧
    (run_ops key ops zeroStore).total_viewed = viewed_successes key ops zeroStore ∧
    ∀ st : Store, st.total_created ≤ (run_ops key ops st).total_created ∧
      st.total_viewed ≤ (run_ops key ops st).total_viewed := by
  refine ⟨by simpa [zeroStore] using run_ops_total_created key ops zeroStore,
    by simpa [zeroStore] using run_ops_total_viewed key ops zeroStore,
    fun st => ⟨?_, ?_⟩⟩
  · rw [run_ops_total_created]
    omega
  · rw [run_ops_total_viewed]
    omega

/-- C10: on a record stored with `password_protected = false` the supplied
password is never inspected — retrieval with any `access_password` behaves
exactly as retrieval with none — and a pending such record is retrieved
successfully whenever its blob decrypts. -/
theorem C10_unprotected_ignores_password (key : List Nat) (sid : String) (pw : Option String)
    (now : Nat) (st : Store) (doc : SecretDoc)
    (hf : find_one (cleanup_expired_secrets now st).1 sid = some doc)
    (hp : doc.password_protected = false) :
    get_secret key sid pw now st = get_secret key sid none now st ∧
    (doc.viewed = false →
      ∀ content, decrypt_content key doc.encrypted_content doc.nonce = some content →
        (get_secret key sid pw now st).1 = .success content doc.created_at doc.expires_at) := by
  constructor
  · simp [get_secret, hf, hp]
  · intro hv content hd
    simp [get_secret, hf, hp, hv, hd]

/-- Witness for C10: a wrong password on the unprotected `store1` secret still
retrieves the content. -/
theorem C10_unprotected_ignores_password_witness :
    find_one (cleanup_expired_secrets 50 store1).1 "abcd1234" = some doc1 ∧
    doc1.password_protected = false ∧
    (get_secret key0 "abcd1234" (some "wrongpw") 50 store1).1 = .success "s" 0 100 :=
  ⟨by decide, by decide,
    (C10_unprotected_ignores_password key0 "abcd1234" (some "wrongpw") 50 store1 doc1
      (by decide) (by decide)).2 (by decide) "s" (by decide)⟩

end SecretSharing
